import Mathlib

/-!
Shallow embedding of `local_server.py` (formula-ocr): the Model Resolver
(`get_available_model`), the Output Normalizer (`clean_latex_output`) and the
`/recognize` handler, modelled over `List Char` with backend interactions made
explicit as sum-type outcomes.  Python text is modelled as `List Char`; Python
`str.strip()` is modelled over the ASCII whitespace characters it strips.
-/

/-- Python text, modelled as a list of characters. -/
abbrev Str := List Char

/-- The whitespace characters stripped by Python `str.strip()` (ASCII range). -/
def isPySpace (c : Char) : Bool :=
  c == ' ' || c == '\t' || c == '\n' || c == '\r' || c == '\x0b' || c == '\x0c'

/-- Remove leading whitespace, as in Python `str.lstrip()`. -/
def lstripPy (l : Str) : Str := l.dropWhile isPySpace

/-- Remove trailing whitespace, as in Python `str.rstrip()`. -/
def rstripPy (l : Str) : Str := (l.reverse.dropWhile isPySpace).reverse

/-- Python `str.strip()`: drop whitespace at both ends. -/
def stripPy (l : Str) : Str := rstripPy (lstripPy l)

/-- Python `s.split(":")[0]`: the characters before the first colon
(the "base name" of a model identifier). -/
def baseName (m : Str) : Str := m.takeWhile (fun c => c != ':')

/-- Python `s.split("\n")`: split at every newline, keeping empty pieces
(`"".split("\n") == [""]`). -/
def splitNl : Str → List Str
  | [] => [[]]
  | c :: rest =>
    match splitNl rest with
    | [] => if c = '\n' then [[], []] else [[c]]
    | h :: t => if c = '\n' then [] :: h :: t else (c :: h) :: t

/-- Python `"\n".join(lines)`. -/
def joinNl : List Str → Str
  | [] => []
  | [l] => l
  | l :: ls => l ++ '\n' :: joinNl ls

/-- The triple-backtick fence marker. -/
def fenceMark : Str := "```".toList

/-- Python `text[2:-2]` (empty when fewer than four characters remain). -/
def sliceOff2 (t : Str) : Str := (t.drop 2).take (t.length - 4)

/-- Python `text[1:-1]`. -/
def sliceOff1 (t : Str) : Str := (t.drop 1).take (t.length - 2)

/-- Guard of the markdown-fence branch: `text.startswith("```")`. -/
def fenceGuard (t : Str) : Bool := fenceMark.isPrefixOf t

/-- Guard `text.startswith("$$") and text.endswith("$$")`. -/
def ddGuard (t : Str) : Bool :=
  ("$$".toList).isPrefixOf t && ("$$".toList).isSuffixOf t

/-- Guard `text.startswith("$") and text.endswith("$")`. -/
def sdGuard (t : Str) : Bool :=
  ("$".toList).isPrefixOf t && ("$".toList).isSuffixOf t

/-- Guard `text.startswith("\\[") and text.endswith("\\]")`. -/
def brGuard (t : Str) : Bool :=
  ("\\[".toList).isPrefixOf t && ("\\]".toList).isSuffixOf t

/-- Fence-removal stage of `clean_latex_output`: when the text starts with
the fence marker, drop every line whose stripped form starts with the fence
marker and rejoin the rest with newlines. -/
def fenceStep (t : Str) : Str :=
  if fenceGuard t then
    joinNl ((splitNl t).filter (fun l => !(fenceMark.isPrefixOf (stripPy l))))
  else t

/-- Dollar-stripping stage: remove one `$$ ... $$` wrapper, else one
`$ ... $` wrapper. -/
def dollarStep (t : Str) : Str :=
  if ddGuard t then sliceOff2 t
  else if sdGuard t then sliceOff1 t
  else t

/-- Bracket-stripping stage: remove a leading `\[` and trailing `\]`. -/
def bracketStep (t : Str) : Str :=
  if brGuard t then sliceOff2 t else t

/-- `clean_latex_output` from `local_server.py`, lines 179-204: empty text is
returned unchanged, otherwise strip, remove a markdown code fence, strip
`$$`/`$` wrappers, strip a `\[ \]` wrapper, and strip again. -/
def clean_latex_output (text : Str) : Str :=
  if text = [] then []
  else stripPy (bracketStep (dollarStep (fenceStep (stripPy text))))

/-- Outcome of the `GET {OLLAMA_URL}/api/tags` call made inside
`get_available_model`: a successful response carrying the parsed model names
(`response.json().get("models", [])`, with the missing-key default already
applied), a non-success HTTP status (`response.ok` false), or a raised
exception (network failure etc., caught by the bare `except`). -/
inductive TagsResult where
  | ok (models : List Str)
  | httpError
  | netFail
deriving DecidableEq

/-- The priority-ordered `VISION_MODELS` list from `local_server.py`. -/
def VISION_MODELS : List Str :=
  ["llama3.2-vision".toList, "llava".toList, "llava:13b".toList,
   "llava:7b".toList, "bakllava".toList, "minicpm-v".toList,
   "moondream".toList]

/-- The preference scan of `get_available_model`, lines 47-54: for each
supported model in order, if its base name occurs among the listed base
names, return the first listed model whose full name starts with that base
name; if the inner scan finds none, continue with the next preference. -/
def pickModel (models : List Str) : List Str → Option Str
  | [] => none
  | vm :: rest =>
    if baseName vm ∈ models.map baseName then
      match models.find? (fun m => (baseName vm).isPrefixOf m) with
      | some m => some m
      | none => pickModel models rest
    else pickModel models rest

/-- `get_available_model` from `local_server.py`, lines 38-56, as a function
of the `/api/tags` outcome: `None` on exception or non-success status,
otherwise the preference scan over the listed models. -/
def get_available_model (supported : List Str) (r : TagsResult) : Option Str :=
  match r with
  | .ok models => pickModel models supported
  | .httpError => none
  | .netFail => none

/-- Resolver behaviour claimed by the spec sentence of C1 (base-name
equality): the first name in `models` whose BASE NAME EQUALS the base of the
earliest supported entry whose base occurs among the listed base names. -/
def resolveSpecBaseEq (supported models : List Str) : Option Str :=
  match supported.find? (fun vm => decide (baseName vm ∈ models.map baseName)) with
  | some vm => models.find? (fun m => baseName m == baseName vm)
  | none => none

/-- Resolver behaviour as the code implements it: the first name in `models`
whose FULL NAME STARTS WITH the base of the earliest supported entry whose
base occurs among the listed base names. -/
def resolveSpecStartsWith (supported models : List Str) : Option Str :=
  match supported.find? (fun vm => decide (baseName vm ∈ models.map baseName)) with
  | some vm => models.find? (fun m => (baseName vm).isPrefixOf m)
  | none => none

/-- Outcome of the `POST {OLLAMA_URL}/api/generate` call inside `recognize`:
a successful response carrying `result.get("response", "")` (missing-key
default already applied), a non-success HTTP status carrying
`response.status_code`, a `requests.exceptions.Timeout`, or any other
exception carrying `str(e)`. -/
inductive GenOutcome where
  | success (raw : Str)
  | httpFail (code : Nat)
  | timeout
  | exc (msg : Str)
deriving DecidableEq

/-- JSON body returned by `recognize` to the client. -/
inductive RecResponse where
  | okResp (latex : Str) (model : Str)
  | errResp (code : Nat) (msg : Str)
deriving DecidableEq

/-- The HTTP status attached to a response (`jsonify(...)` alone is 200). -/
def RecResponse.status : RecResponse → Nat
  | .okResp _ _ => 200
  | .errResp c _ => c

/-- The `success` field of the JSON body. -/
def RecResponse.successFlag : RecResponse → Bool
  | .okResp _ _ => true
  | .errResp _ _ => false

/-- The JSON payload the code sends to `/api/generate` (lines 127-141).
The float option `temperature: 0.1` is part of the payload in the source but
carries no claim here and floats have no shallow embedding, so it is omitted
from this record. -/
structure GenRequest where
  model : Str
  prompt : Str
  images : List Str
  stream : Bool
  numPredict : Nat
  numCtx : Nat
deriving DecidableEq

/-- The fixed instruction prompt of `recognize` (lines 112-123). -/
def PROMPT : Str :=
  ("Look at this image of a mathematical formula or equation.\n" ++
   "Extract the formula and convert it to LaTeX code.\n\nRules:\n" ++
   "1. Output ONLY the LaTeX code, nothing else\n" ++
   "2. Do NOT include $$ or $ delimiters\n" ++
   "3. Do NOT include any explanation or text\n" ++
   "4. If there are multiple formulas, separate them with newlines\n\n" ++
   "Example output format:\nE = mc^2\n\\frac\x7ba\x7d\x7bb\x7d = c").toList

/-- Error message of the missing-image branch (line 97). -/
def msgMissingImage : Str := "Missing image data".toList

/-- Error message of the no-model branch (line 105). -/
def msgNoModel : Str :=
  "未找到视觉模型，请运行: ollama pull llama3.2-vision".toList

/-- Error message of the backend-status branch (line 146). -/
def msgOllamaErr (code : Nat) : Str :=
  "Ollama 错误: ".toList ++ (toString code).toList

/-- Error message of the empty-result branch (line 158). -/
def msgCannotRecognize : Str := "无法识别公式".toList

/-- Error message of the timeout branch (line 170). -/
def msgTimeout : Str := "识别超时，请重试".toList

/-- The key looked up in the request body. -/
def imageKey : Str := "image".toList

/-- What one call to `recognize` produced: the response sent to the client,
whether `/api/tags` was queried (inside `get_available_model`), and the
request forwarded to `/api/generate`, when one was. -/
structure RecOutcome where
  resp : RecResponse
  tagsQueried : Bool
  genRequest : Option GenRequest
deriving DecidableEq

/-- The `/recognize` handler from `local_server.py`, lines 87-177, as a
function of the parsed JSON body (`none` models `request.get_json()`
returning no data) and the outcomes of the two backend calls.  A JSON object
is an association list of key/value pairs; the relay treats the image payload
opaquely, so values are modelled as strings.  The guard mirrors
`if not data or 'image' not in data` (an empty object is falsy in Python). -/
def recognize : List Str → Option (List (Str × Str)) → TagsResult →
    GenOutcome → RecOutcome
  | _, none, _, _ => ⟨.errResp 400 msgMissingImage, false, none⟩
  | supported, some data, tags, gen =>
    if data.isEmpty || !(data.lookup imageKey).isSome then
      ⟨.errResp 400 msgMissingImage, false, none⟩
    else
      match get_available_model supported tags with
      | none => ⟨.errResp 503 msgNoModel, true, none⟩
      | some model =>
        let image := (data.lookup imageKey).getD []
        let req : GenRequest := ⟨model, PROMPT, [image], false, 256, 2048⟩
        match gen with
        | .timeout => ⟨.errResp 504 msgTimeout, true, some req⟩
        | .exc m => ⟨.errResp 500 m, true, some req⟩
        | .httpFail code => ⟨.errResp 500 (msgOllamaErr code), true, some req⟩
        | .success raw =>
          let latex := clean_latex_output (stripPy raw)
          if latex = [] then ⟨.errResp 400 msgCannotRecognize, true, some req⟩
          else ⟨.okResp latex model, true, some req⟩

/-! ### Helper lemmas -/

lemma lstripPy_idem (l : Str) : lstripPy (lstripPy l) = lstripPy l :=
  List.dropWhile_idempotent _ _

lemma rstripPy_eq_rdropWhile (l : Str) : rstripPy l = l.rdropWhile isPySpace := rfl

lemma rstripPy_idem (l : Str) : rstripPy (rstripPy l) = rstripPy l := by
  rw [rstripPy_eq_rdropWhile, rstripPy_eq_rdropWhile]
  exact List.rdropWhile_idempotent _ _

lemma rstripPy_append (l : Str) : ∃ s, l = rstripPy l ++ s := by
  obtain ⟨s, hs⟩ := List.dropWhile_suffix (l := l.reverse) isPySpace
  refine ⟨s.reverse, ?_⟩
  have : l.reverse.reverse = (s ++ l.reverse.dropWhile isPySpace).reverse := by
    rw [hs]
  simpa [rstripPy] using this

lemma lstripPy_rstripPy (l : Str) (h : lstripPy l = l) :
    lstripPy (rstripPy l) = rstripPy l := by
  obtain ⟨s, hs⟩ := rstripPy_append l
  cases hr : rstripPy l with
  | nil => rfl
  | cons a t =>
    have hla : l = a :: (t ++ s) := by rw [hs, hr]; rfl
    have hpa : ¬ isPySpace a = true := by
      have h0 := List.dropWhile_eq_self_iff.mp h
      rw [hla] at h0
      exact h0 (by simp)
    simp [lstripPy, List.dropWhile_cons, hpa]

lemma stripPy_idem (l : Str) : stripPy (stripPy l) = stripPy l := by
  unfold stripPy
  rw [lstripPy_rstripPy (lstripPy l) (lstripPy_idem l), rstripPy_idem]

lemma stripPy_clean (t : Str) : stripPy (clean_latex_output t) = clean_latex_output t := by
  unfold clean_latex_output
  split
  · rfl
  · exact stripPy_idem _

lemma baseName_isPrefixOf (m : Str) : (baseName m).isPrefixOf m = true := by
  induction m with
  | nil => rfl
  | cons c rest ih =>
    unfold baseName
    rw [List.takeWhile_cons]
    cases h : (c != ':') with
    | false => simp [List.isPrefixOf]
    | true =>
      rw [if_pos rfl]
      show ((c == c) && List.isPrefixOf (baseName rest) rest) = true
      rw [beq_self_eq_true, Bool.true_and]
      exact ih

lemma find?_startsWith_isSome {b : Str} {models : List Str}
    (h : b ∈ models.map baseName) :
    (models.find? (fun m => b.isPrefixOf m)).isSome = true := by
  rw [List.find?_isSome]
  obtain ⟨m, hm, hbm⟩ := List.mem_map.mp h
  exact ⟨m, hm, by rw [← hbm]; exact baseName_isPrefixOf m⟩

lemma pickModel_eq (models supported : List Str) :
    pickModel models supported = resolveSpecStartsWith supported models := by
  induction supported with
  | nil => rfl
  | cons vm rest ih =>
    unfold pickModel resolveSpecStartsWith
    by_cases h : baseName vm ∈ models.map baseName
    · rw [if_pos h, List.find?_cons_of_pos _ (by simpa using h)]
      have hs := find?_startsWith_isSome h
      cases hf : models.find? (fun m => (baseName vm).isPrefixOf m) with
      | none => rw [hf] at hs; simp at hs
      | some m => exact hf.symm
    · rw [if_neg h, List.find?_cons_of_neg _ (by simpa using h), ih]
      rfl

/-- Unfolding of `clean_latex_output` on nonempty input. -/
lemma clean_eq (t : Str) (h : t ≠ []) :
    clean_latex_output t = stripPy (bracketStep (dollarStep (fenceStep (stripPy t)))) := by
  unfold clean_latex_output
  rw [if_neg h]

/-! ### Claims -/

/-- C1, counterexample: the resolver does NOT return the first listed model
whose base name equals the selected preferred base.  With the real
`VISION_MODELS` list and listing `["llava-phi3:latest", "llava:13b"]`, the
earliest preference whose base occurs among the listed bases is `llava`, and
the first listed name with base equal to `llava` is `llava:13b`; the code
instead returns `llava-phi3:latest`, whose full name merely starts with
`llava`. -/
theorem C1_counterexample :
    resolveSpecBaseEq VISION_MODELS
        ["llava-phi3:latest".toList, "llava:13b".toList]
      = some ("llava:13b".toList) ∧
    get_available_model VISION_MODELS
        (.ok ["llava-phi3:latest".toList, "llava:13b".toList])
      = some ("llava-phi3:latest".toList) ∧
    get_available_model VISION_MODELS
        (.ok ["llava-phi3:latest".toList, "llava:13b".toList])
      ≠ resolveSpecBaseEq VISION_MODELS
          ["llava-phi3:latest".toList, "llava:13b".toList] :=
  ⟨by decide, by decide, by decide⟩

/-- C1 (amended): for every preference list and every listing returned by
the backend, `get_available_model` returns the first listed name whose FULL
NAME STARTS WITH the base of the earliest preference whose base occurs among
the listed base names, and `none` when no such intersection exists. -/
theorem C1_resolver_matches_startsWith_policy (supported models : List Str) :
    get_available_model supported (.ok models)
      = resolveSpecStartsWith supported models :=
  pickModel_eq models supported

/-- C2, counterexample: the Output Normalizer is not idempotent on every
string: `clean("$$$x$$$") = "$x$"` but `clean("$x$") = "x"`, so applying it
twice differs from applying it once. -/
theorem C2_counterexample :
    clean_latex_output ("$$$x$$$".toList) = "$x$".toList ∧
    clean_latex_output (clean_latex_output ("$$$x$$$".toList)) = "x".toList ∧
    clean_latex_output (clean_latex_output ("$$$x$$$".toList))
      ≠ clean_latex_output ("$$$x$$$".toList) :=
  ⟨by decide, by decide, by decide⟩

/-- C2 (amended): `clean(clean(x)) = clean(x)` holds for every `x` whose
once-cleaned form is itself clean, i.e. does not begin with a code fence and
is not wrapped in `$$ ... $$`, `$ ... $` or `\[ ... \]` delimiters; a second
application strips one more layer of nesting otherwise. -/
theorem C2_clean_idempotent_on_clean_output (x : Str)
    (h1 : fenceGuard (clean_latex_output x) = false)
    (h2 : ddGuard (clean_latex_output x) = false)
    (h3 : sdGuard (clean_latex_output x) = false)
    (h4 : brGuard (clean_latex_output x) = false) :
    clean_latex_output (clean_latex_output x) = clean_latex_output x := by
  by_cases hnil : clean_latex_output x = []
  · rw [hnil]; rfl
  · have g1 : fenceStep (clean_latex_output x) = clean_latex_output x := by
      unfold fenceStep; simp [h1]
    have g2 : dollarStep (clean_latex_output x) = clean_latex_output x := by
      unfold dollarStep; simp [h2, h3]
    have g3 : bracketStep (clean_latex_output x) = clean_latex_output x := by
      unfold bracketStep; simp [h4]
    rw [clean_eq (clean_latex_output x) hnil, stripPy_clean, g1, g2, g3,
      stripPy_clean]

/-- C2 witness: idempotence at the concrete input `"$$E=mc^2$$"`. -/
theorem C2_witness :
    clean_latex_output (clean_latex_output ("$$E=mc^2$$".toList))
      = clean_latex_output ("$$E=mc^2$$".toList) :=
  C2_clean_idempotent_on_clean_output ("$$E=mc^2$$".toList)
    (by decide) (by decide) (by decide) (by decide)

/-- C3: when the stripped input starts with the triple-backtick fence
marker, `clean_latex_output` keeps exactly the lines whose stripped form
does NOT start with the fence marker (so every fence line is removed, not
only the first and last), rejoins them with newlines, and only then applies
the dollar and bracket stripping stages and the final strip. -/
theorem C3_fence_removes_every_fence_line (text : Str)
    (h : fenceGuard (stripPy text) = true) :
    clean_latex_output text =
      stripPy (bracketStep (dollarStep (joinNl
        ((splitNl (stripPy text)).filter
          (fun l => !(fenceMark.isPrefixOf (stripPy l))))))) := by
  have hne : text ≠ [] := by
    intro hnil
    rw [hnil] at h
    exact absurd h (by decide)
  rw [clean_eq text hne]
  unfold fenceStep
  rw [if_pos h]

/-- C3 witness: concrete evaluation at an input with three fence lines,
one of them in the middle. -/
theorem C3_witness :
    clean_latex_output ("```latex\nx=1\n```\n```".toList) =
      stripPy (bracketStep (dollarStep (joinNl
        ((splitNl (stripPy ("```latex\nx=1\n```\n```".toList))).filter
          (fun l => !(fenceMark.isPrefixOf (stripPy l))))))) :=
  C3_fence_removes_every_fence_line ("```latex\nx=1\n```\n```".toList) (by decide)

/-- C4: whenever some preferred entry's base occurs among the listed base
names (the earliest such entry being `vm`), the resolver returns the
original full name of the first listed model whose full name starts with
`vm`'s base — tag suffix preserved, since the listed name is returned
unchanged. -/
theorem C4_resolver_returns_first_full_name (supported models : List Str)
    (vm : Str)
    (h : supported.find? (fun v => decide (baseName v ∈ models.map baseName))
          = some vm) :
    ∃ m, models.find? (fun x => (baseName vm).isPrefixOf x) = some m ∧
      get_available_model supported (.ok models) = some m := by
  have hp : baseName vm ∈ models.map baseName := by
    have hp0 := List.find?_some h
    simpa using hp0
  have hs := find?_startsWith_isSome hp
  cases hf : models.find? (fun x => (baseName vm).isPrefixOf x) with
  | none => rw [hf] at hs; simp at hs
  | some m =>
    refine ⟨m, rfl, ?_⟩
    show pickModel models supported = some m
    rw [pickModel_eq]
    unfold resolveSpecStartsWith
    rw [h]
    exact hf

/-- C4 witness: with the real preference list and listing `["llava:13b"]`,
the matching preference is `llava` and the returned name keeps the `:13b`
tag. -/
theorem C4_witness :
    ∃ m, (["llava:13b".toList] : List Str).find?
          (fun x => (baseName ("llava".toList)).isPrefixOf x) = some m ∧
      get_available_model VISION_MODELS (.ok ["llava:13b".toList]) = some m :=
  C4_resolver_returns_first_full_name VISION_MODELS ["llava:13b".toList]
    ("llava".toList) (by decide)

/-- C5: the resolver returns `none` (and, being a total function, cannot
raise) on a non-success HTTP status, on a network failure or other
exception, and on a successful listing in which no preferred base occurs
among the listed base names. -/
theorem C5_resolver_none_on_failure (supported models : List Str)
    (h : ∀ vm ∈ supported, baseName vm ∉ models.map baseName) :
    get_available_model supported .httpError = none ∧
    get_available_model supported .netFail = none ∧
    get_available_model supported (.ok models) = none := by
  refine ⟨rfl, rfl, ?_⟩
  show pickModel models supported = none
  rw [pickModel_eq]
  unfold resolveSpecStartsWith
  rw [List.find?_eq_none.mpr (fun vm hvm => by simpa using h vm hvm)]

/-- C5 witness: no vision model matches a listing of text-only models. -/
theorem C5_witness :
    get_available_model VISION_MODELS .httpError = none ∧
    get_available_model VISION_MODELS .netFail = none ∧
    get_available_model VISION_MODELS
      (.ok ["mistral:7b".toList, "tinyllama:latest".toList]) = none :=
  C5_resolver_none_on_failure VISION_MODELS
    ["mistral:7b".toList, "tinyllama:latest".toList] (by decide)

/-- C9: the four concrete normalizer equations from the spec. -/
theorem C9_clean_concrete_equations :
    clean_latex_output ("$$E=mc^2$$".toList) = "E=mc^2".toList ∧
    clean_latex_output ("$x$".toList) = "x".toList ∧
    clean_latex_output ("```\nx=1\n```".toList) = "x=1".toList ∧
    clean_latex_output ("".toList) = "".toList :=
  ⟨by decide, by decide, by decide, by decide⟩

/-- The missing-image guard is false when the body holds an `image` key. -/
lemma guard_false_of_lookup {data : List (Str × Str)} {v : Str}
    (h : data.lookup imageKey = some v) :
    (data.isEmpty || !(data.lookup imageKey).isSome) = false := by
  cases data with
  | nil => simp [List.lookup] at h
  | cons a t => simp [h]

/-- The response `recognize` produces from a generation outcome once a model
is resolved (lines 144-166 of the source). -/
def genResp : GenOutcome → Str → RecResponse
  | .timeout, _ => .errResp 504 msgTimeout
  | .exc m, _ => .errResp 500 m
  | .httpFail code, _ => .errResp 500 (msgOllamaErr code)
  | .success raw, model =>
    if clean_latex_output (stripPy raw) = [] then
      .errResp 400 msgCannotRecognize
    else .okResp (clean_latex_output (stripPy raw)) model

/-- With an image in the body and a resolved model, `recognize` queries the
backend with the fixed request and answers according to the generation
outcome. -/
lemma recognize_reached {supported : List Str} {data : List (Str × Str)}
    {tags : TagsResult} {v model : Str} (gen : GenOutcome)
    (himg : data.lookup imageKey = some v)
    (hm : get_available_model supported tags = some model) :
    recognize supported (some data) tags gen =
      ⟨genResp gen model, true, some ⟨model, PROMPT, [v], false, 256, 2048⟩⟩ := by
  simp only [recognize]
  rw [if_neg (by rw [guard_false_of_lookup himg]; exact Bool.false_ne_true), hm, himg]
  cases gen with
  | success raw =>
    by_cases hcl : clean_latex_output (stripPy raw) = []
    · simp [genResp, hcl]
    · simp [genResp, hcl]
  | httpFail code => rfl
  | timeout => rfl
  | exc m => rfl

/-- With an image in the body but no resolvable model, `recognize` answers
503 without a generation request. -/
lemma recognize_no_model {supported : List Str} {data : List (Str × Str)}
    {tags : TagsResult} {v : Str} (gen : GenOutcome)
    (himg : data.lookup imageKey = some v)
    (hm : get_available_model supported tags = none) :
    recognize supported (some data) tags gen
      = ⟨.errResp 503 msgNoModel, true, none⟩ := by
  simp only [recognize]
  rw [if_neg (by rw [guard_false_of_lookup himg]; exact Bool.false_ne_true), hm]

/-- Two error responses with different status codes differ. -/
lemma errResp_ne_of_code {c1 c2 : Nat} {m1 m2 : Str} (h : c1 ≠ c2) :
    RecResponse.errResp c1 m1 ≠ RecResponse.errResp c2 m2 := by
  intro he
  injection he with h1 h2
  exact h h1

/-- C6: when the body carries an image, a model is resolved and the
generation call succeeds but its raw text normalizes to the empty string,
`recognize` answers the RecognitionFailed error: HTTP 400 with
`success:false`. -/
theorem C6_empty_normalization_gives_400 (supported : List Str)
    (data : List (Str × Str)) (tags : TagsResult) (raw model v : Str)
    (himg : data.lookup imageKey = some v)
    (hmodel : get_available_model supported tags = some model)
    (hclean : clean_latex_output (stripPy raw) = []) :
    (recognize supported (some data) tags (.success raw)).resp
        = .errResp 400 msgCannotRecognize ∧
    (recognize supported (some data) tags (.success raw)).resp.status = 400 ∧
    (recognize supported (some data) tags (.success raw)).resp.successFlag
        = false := by
  rw [recognize_reached (.success raw) himg hmodel]
  refine ⟨?_, ?_, ?_⟩ <;>
    simp [genResp, hclean, RecResponse.status, RecResponse.successFlag]

/-- C6 witness: raw output `"$$"` normalizes to the empty string and the
endpoint reports the failure as a 400 with `success:false`. -/
theorem C6_witness :
    (recognize VISION_MODELS (some [(imageKey, "aGVsbG8=".toList)])
        (.ok ["llava:13b".toList]) (.success ("$$".toList))).resp
      = .errResp 400 msgCannotRecognize ∧
    (recognize VISION_MODELS (some [(imageKey, "aGVsbG8=".toList)])
        (.ok ["llava:13b".toList]) (.success ("$$".toList))).resp.status = 400 ∧
    (recognize VISION_MODELS (some [(imageKey, "aGVsbG8=".toList)])
        (.ok ["llava:13b".toList]) (.success ("$$".toList))).resp.successFlag
      = false :=
  C6_empty_normalization_gives_400 VISION_MODELS
    [(imageKey, "aGVsbG8=".toList)] (.ok ["llava:13b".toList])
    ("$$".toList) ("llava:13b".toList) ("aGVsbG8=".toList)
    (by decide) (by decide) (by decide)

/-- C7: once the generation call is reached, a backend timeout yields
HTTP 504 with `success:false`, and no other generation outcome yields 504
(the others answer 200, 400 or 500; an unresolved model answers 503 before
generation). -/
theorem C7_timeout_gives_504 (supported : List Str)
    (data : List (Str × Str)) (tags : TagsResult) (v model : Str)
    (himg : data.lookup imageKey = some v)
    (hmodel : get_available_model supported tags = some model) :
    (recognize supported (some data) tags .timeout).resp
        = .errResp 504 msgTimeout ∧
    (recognize supported (some data) tags .timeout).resp.successFlag = false ∧
    (∀ g, g ≠ GenOutcome.timeout →
      (recognize supported (some data) tags g).resp.status ≠ 504) := by
  refine ⟨?_, ?_, ?_⟩
  · rw [recognize_reached .timeout himg hmodel]
    rfl
  · rw [recognize_reached .timeout himg hmodel]
    rfl
  · intro g hgne
    rw [recognize_reached g himg hmodel]
    cases g with
    | timeout => exact absurd rfl hgne
    | httpFail code => simp [genResp, RecResponse.status]
    | exc m => simp [genResp, RecResponse.status]
    | success raw =>
      by_cases hcl : clean_latex_output (stripPy raw) = []
      · simp [genResp, hcl, RecResponse.status]
      · simp [genResp, hcl, RecResponse.status]

/-- C7 witness: concrete timeout answers 504 with `success:false`. -/
theorem C7_witness :
    (recognize VISION_MODELS (some [(imageKey, "aGVsbG8=".toList)])
        (.ok ["llava:13b".toList]) .timeout).resp = .errResp 504 msgTimeout :=
  (C7_timeout_gives_504 VISION_MODELS [(imageKey, "aGVsbG8=".toList)]
    (.ok ["llava:13b".toList]) ("aGVsbG8=".toList) ("llava:13b".toList)
    (by decide) (by decide)).1

/-- C8: an absent body or a body without the `image` key answers
HTTP 400 with `success:false`, without querying `/api/tags` and without
forwarding anything to `/api/generate`. -/
theorem C8_missing_image_fails_fast (supported : List Str)
    (body : Option (List (Str × Str))) (tags : TagsResult) (gen : GenOutcome)
    (h : body = none ∨ ∃ data, body = some data ∧ data.lookup imageKey = none) :
    (recognize supported body tags gen).resp = .errResp 400 msgMissingImage ∧
    (recognize supported body tags gen).resp.status = 400 ∧
    (recognize supported body tags gen).resp.successFlag = false ∧
    (recognize supported body tags gen).tagsQueried = false ∧
    (recognize supported body tags gen).genRequest = none := by
  rcases h with h | ⟨data, hb, hl⟩
  · subst h
    exact ⟨rfl, rfl, rfl, rfl, rfl⟩
  · subst hb
    have hguard : (data.isEmpty || !(data.lookup imageKey).isSome) = true := by
      rw [hl]
      simp
    simp only [recognize]
    rw [if_pos hguard]
    exact ⟨rfl, rfl, rfl, rfl, rfl⟩

/-- C8 witness: an absent JSON body. -/
theorem C8_witness :
    (recognize VISION_MODELS none .netFail .timeout).resp
        = .errResp 400 msgMissingImage ∧
    (recognize VISION_MODELS none .netFail .timeout).resp.status = 400 ∧
    (recognize VISION_MODELS none .netFail .timeout).resp.successFlag = false ∧
    (recognize VISION_MODELS none .netFail .timeout).tagsQueried = false ∧
    (recognize VISION_MODELS none .netFail .timeout).genRequest = none :=
  C8_missing_image_fails_fast VISION_MODELS none .netFail .timeout (Or.inl rfl)

/-- C10: validation only checks presence of the `image` key: any present
value (the empty string included) avoids the InvalidInput error, the
resolver is invoked, and when a model resolves the value is forwarded
unchanged as the single element of the `images` list of the generation
request. -/
theorem C10_present_image_forwarded (supported : List Str)
    (data : List (Str × Str)) (tags : TagsResult) (gen : GenOutcome) (v : Str)
    (himg : data.lookup imageKey = some v) :
    (recognize supported (some data) tags gen).tagsQueried = true ∧
    (recognize supported (some data) tags gen).resp
        ≠ .errResp 400 msgMissingImage ∧
    (∀ model, get_available_model supported tags = some model →
      (recognize supported (some data) tags gen).genRequest
        = some ⟨model, PROMPT, [v], false, 256, 2048⟩) := by
  cases hm : get_available_model supported tags with
  | none =>
    rw [recognize_no_model gen himg hm]
    refine ⟨rfl, errResp_ne_of_code (by decide), ?_⟩
    intro model hmm
    exact Option.noConfusion hmm
  | some model =>
    rw [recognize_reached gen himg hm]
    refine ⟨rfl, ?_, ?_⟩
    · show genResp gen model ≠ RecResponse.errResp 400 msgMissingImage
      cases gen with
      | timeout => exact errResp_ne_of_code (by decide)
      | exc m => exact errResp_ne_of_code (by decide)
      | httpFail code => exact errResp_ne_of_code (by decide)
      | success raw =>
        by_cases hcl : clean_latex_output (stripPy raw) = []
        · simp only [genResp, if_pos hcl]
          intro he
          injection he with h1 h2
          exact absurd h2 (by decide)
        · simp only [genResp, if_neg hcl]
          intro he
          exact RecResponse.noConfusion he
    · intro model' hmm
      injection hmm with hmm
      subst hmm
      rfl

/-- C10 witness: the body `[("image", "")]` with the empty string as value
passes validation and the empty string is forwarded as the single image. -/
theorem C10_witness :
    (recognize VISION_MODELS (some [(imageKey, [])])
        (.ok ["llava:13b".toList]) (.success ("E=mc^2".toList))).genRequest
      = some ⟨"llava:13b".toList, PROMPT, [[]], false, 256, 2048⟩ :=
  (C10_present_image_forwarded VISION_MODELS [(imageKey, [])]
    (.ok ["llava:13b".toList]) (.success ("E=mc^2".toList)) [] (by decide)).2.2
    ("llava:13b".toList) (by decide)
